import Mathlib

/-!
Verification of the kortex inference gateway against its specification.
Shallow embedding of the relevant Go sources: the route reconciler phase
computation, the backend reconciler health thresholding, the fallback
chain construction, the rate limiter, the proxy server rate limit deny
branch, the experiment bucketing, the circuit breaker, the router route
lookup, the config cache, and the cost tracking response hook.
-/

namespace Kortex

/-- Association list lookup with decidable key equality. Models reads of a
Go map keyed by strings or by namespaced names. -/
def assocLookup {κ α : Type} [DecidableEq κ] : List (κ × α) → κ → Option α
  | [], _ => none
  | (k1, v) :: rest, k => if k1 = k then some v else assocLookup rest k

/-- Association list insert or replace. Models a write to a Go map: the new
binding shadows any previous binding for the key. -/
def assocUpsert {κ α : Type} [DecidableEq κ] (l : List (κ × α)) (k : κ) (v : α) : List (κ × α) :=
  (k, v) :: l.filter (fun kv => kv.1 ≠ k)

/-!
Route phase computation, from internal/controller/inferenceroute_controller.go.
The reconciler counts, over the backend names referenced by a route, how many
are missing from the API server and how many of the resolved ones are healthy,
then derives the phase string stored in the route status.
-/

def PhasePending : String := "Pending"

def PhaseActive : String := "Active"

def PhaseDegraded : String := "Degraded"

def PhaseFailed : String := "Failed"

/-- Embeds determinePhase of the route reconciler: the phase is derived from
the total number of referenced backends, the healthy count and the missing
count, in that order of checks. -/
def determinePhase (total healthy missing : Nat) : String :=
  if total = 0 then PhasePending
  else if missing > 0 then PhaseFailed
  else if healthy = 0 then PhaseFailed
  else if healthy < total then PhaseDegraded
  else PhaseActive

/-!
Fallback chain construction, from internal/proxy/backend.go. The handler
starts the chain at the primary backend name and appends each configured
fallback backend whose name differs from the primary. The fallback list of a
route is optional, hence the Option argument.
-/

/-- Embeds buildFallbackChain of the backend handler. Only names equal to the
primary are dropped from the configured fallback list. -/
def buildFallbackChain (fallbackBackends : Option (List String)) (primary : String) : List String :=
  primary ::
    (match fallbackBackends with
     | none => []
     | some names => names.filter (fun name => name ≠ primary))

/-- Modelled from the words of the specification, for comparison with
buildFallbackChain: remove duplicates from a list while preserving the order
of first occurrences. -/
def dedupFirstOccurrence : List String → List String
  | [] => []
  | x :: xs => x :: (dedupFirstOccurrence xs).filter (fun y => y ≠ x)

/-!
Rate limit deny branch of the proxy server, from internal/proxy/server.go.
On a denied request the server writes the limit and remaining headers, writes
a Retry-After header computed from the retry delay, and responds 429. The Go
expression int(result.RetryAfter.Seconds()) truncates the duration expressed
in seconds toward zero; durations are modelled in nanoseconds.
-/

def NanosPerSecond : Nat := 1000000000

/-- Embeds the Retry-After computation of the deny branch: the delay in
nanoseconds is truncated to whole seconds and one is added. -/
def retryAfterHeaderValue (retryAfterNs : Nat) : Nat :=
  retryAfterNs / NanosPerSecond + 1

/-- The response written by the proxy server when the rate limiter denies a
request. -/
structure RateLimitDenyResponse where
  status : Nat
  limitHeader : Int
  remainingHeader : Int
  retryAfterHeader : Nat
deriving DecidableEq

/-- Embeds the deny branch of ServeHTTP: status 429 with the three rate limit
headers. -/
def rateLimitDenyResponse (limit : Int) (remaining : Int) (retryAfterNs : Nat) :
    RateLimitDenyResponse :=
  { status := 429
    limitHeader := limit
    remainingHeader := remaining
    retryAfterHeader := retryAfterHeaderValue retryAfterNs }

/-- Modelled from the words of the specification, for comparison with the
deny branch: the ceiling of the delay in seconds. -/
def ceilSeconds (ns : Nat) : Nat := (ns + (NanosPerSecond - 1)) / NanosPerSecond

/-!
Backend health thresholding, from the InferenceBackend reconciler. The
reconciler keeps a per backend count of consecutive probe failures, resets it
on a successful probe, and derives the health status string from the count
and the configured failure threshold.
-/

def HealthStatusHealthy : String := "Healthy"

def HealthStatusUnhealthy : String := "Unhealthy"

def HealthStatusUnknown : String := "Unknown"

/-- Embeds the threshold defaulting of the backend reconciler: 3 unless a
health check config is present with a positive failure threshold. The
argument carries the failure threshold of the optional health check config. -/
def effectiveFailureThreshold (failureThreshold : Option Int) : Int :=
  match failureThreshold with
  | some t => if t > 0 then t else 3
  | none => 3

/-- Embeds the failure count update of the reconcile loop: reset to zero on a
healthy probe, increment otherwise. -/
def updateFailureCount (count : Nat) (probeHealthy : Bool) : Nat :=
  if probeHealthy then 0 else count + 1

/-- Embeds the health status derivation of the reconcile loop. -/
def computeHealthStatus (probeHealthy : Bool) (currentFailures : Nat) (threshold : Int) :
    String :=
  if probeHealthy then HealthStatusHealthy
  else if (currentFailures : Int) ≥ threshold then HealthStatusUnhealthy
  else HealthStatusUnknown

/-- The consecutive failure count after a sequence of probe results, starting
from the zero count of a fresh reconciler. -/
def failureCountAfter (probes : List Bool) : Nat :=
  probes.foldl updateFailureCount 0

/-!
Rate limiter, from internal/proxy/ratelimit.go. The limiter keeps a table of
per route token buckets and a table of per user buckets keyed by route colon
user, plus last access stamps for the user buckets. The token bucket itself
comes from an external library, so its behavior is abstracted behind an
operations record; its concrete behavior is irrelevant to the early return
for missing or non positive configurations.
-/

/-- The rate limit configuration of a route. -/
structure RateLimitConfig where
  requestsPerMinute : Int
  perUser : Bool
  userHeader : String
deriving DecidableEq

/-- The result record returned by the rate limiter. -/
structure RateLimitResult where
  allowed : Bool
  limit : Int
  remaining : Int
  retryAfterNs : Nat
deriving DecidableEq

/-- Operations of the external token bucket library. The type of a bucket and
its behavior are parameters of the embedding. -/
structure LimiterOps (L : Type) where
  newLimiter : Rat → Int → L
  allowOne : L → Bool × L
  tokensOf : L → Int
  reserveDelayNs : L → Nat × L

/-- The mutable state of the rate limiter. -/
structure RateLimiterState (L : Type) where
  routeLimiters : List (String × L)
  userLimiters : List (String × L)
  lastAccess : List (String × Nat)
deriving DecidableEq

/-- Embeds getOrCreateLimiter: reuse an existing bucket or create one with
the given rate and burst. -/
def getOrCreateLimiter {L : Type} (ops : LimiterOps L) (limiters : List (String × L))
    (key : String) (rps : Rat) (burst : Int) : L × List (String × L) :=
  match assocLookup limiters key with
  | some l => (l, limiters)
  | none =>
      let l := ops.newLimiter rps burst
      (l, assocUpsert limiters key l)

/-- Embeds Allow of the rate limiter: early allow when no configuration or a
non positive per minute limit is present, otherwise consult the per user
bucket when enabled and a user id is given, else the per route bucket. -/
def RateLimiterAllow {L : Type} (ops : LimiterOps L) (st : RateLimiterState L)
    (routeName userID : String) (config : Option RateLimitConfig) (now : Nat) :
    RateLimitResult × RateLimiterState L :=
  match config with
  | none => ({ allowed := true, limit := 0, remaining := 0, retryAfterNs := 0 }, st)
  | some cfg =>
    if cfg.requestsPerMinute ≤ 0 then
      ({ allowed := true, limit := 0, remaining := 0, retryAfterNs := 0 }, st)
    else
      let rps : Rat := (cfg.requestsPerMinute : Rat) / 60
      let burst : Int := cfg.requestsPerMinute
      if cfg.perUser ∧ userID ≠ "" then
        let userKey := routeName ++ ":" ++ userID
        let gl := getOrCreateLimiter ops st.userLimiters userKey rps burst
        let lastAccess := assocUpsert st.lastAccess userKey now
        let al := ops.allowOne gl.1
        if al.1 then
          ({ allowed := true, limit := cfg.requestsPerMinute, remaining := ops.tokensOf al.2,
             retryAfterNs := 0 },
           { st with userLimiters := assocUpsert gl.2 userKey al.2, lastAccess := lastAccess })
        else
          let rd := ops.reserveDelayNs al.2
          ({ allowed := false, limit := cfg.requestsPerMinute, remaining := 0,
             retryAfterNs := rd.1 },
           { st with userLimiters := assocUpsert gl.2 userKey rd.2, lastAccess := lastAccess })
      else
        let gl := getOrCreateLimiter ops st.routeLimiters routeName rps burst
        let al := ops.allowOne gl.1
        if al.1 then
          ({ allowed := true, limit := cfg.requestsPerMinute, remaining := ops.tokensOf al.2,
             retryAfterNs := 0 },
           { st with routeLimiters := assocUpsert gl.2 routeName al.2 })
        else
          let rd := ops.reserveDelayNs al.2
          ({ allowed := false, limit := cfg.requestsPerMinute, remaining := 0,
             retryAfterNs := rd.1 },
           { st with routeLimiters := assocUpsert gl.2 routeName rd.2 })

/-- A trivial instance of the bucket operations, usable for evaluating the
limiter on concrete inputs. -/
def unitLimiterOps : LimiterOps Unit where
  newLimiter := fun _ _ => ()
  allowOne := fun _ => (true, ())
  tokensOf := fun _ => 0
  reserveDelayNs := fun _ => (0, ())

/-- The state of a freshly constructed rate limiter. -/
def emptyRateLimiterState : RateLimiterState Unit :=
  { routeLimiters := [], userLimiters := [], lastAccess := [] }

/-!
Experiment bucketing, from the experiment manager. User identifiers and
experiment names are byte strings; the bucket is the 32 bit FNV-1a hash of
the user id, a colon, and the experiment name, reduced modulo 100. The hash
state arithmetic is on 32 bit unsigned integers, modelled with an explicit
modulus.
-/

def fnvOffsetBasis32 : Nat := 2166136261

def fnvPrime32 : Nat := 16777619

def TwoPow32 : Nat := 4294967296

/-- One step of the 32 bit FNV-1a hash: xor in the byte, multiply by the FNV
prime, reduce modulo 2 to the 32. -/
def fnv1aStep (h : Nat) (b : Nat) : Nat := ((h ^^^ b) * fnvPrime32) % TwoPow32

/-- The 32 bit FNV-1a hash of a byte string. -/
def fnv1a32 (bytes : List Nat) : Nat := bytes.foldl fnv1aStep fnvOffsetBasis32

/-- The byte value of the colon character. -/
def colonByte : Nat := 58

/-- Embeds calculateBucket of the experiment manager. -/
def calculateBucket (userID experimentName : List Nat) : Nat :=
  fnv1a32 (userID ++ colonByte :: experimentName) % 100

/-- An A/B experiment spec entry; the name is a byte string because it feeds
the hash. -/
structure ABExperiment where
  name : List Nat
  control : String
  treatment : String
  trafficPercent : Int
deriving DecidableEq

/-- The two sides of an experiment. -/
inductive Variant where
  | control
  | treatment
deriving DecidableEq

/-- The result of an experiment assignment. -/
structure ExperimentResult where
  backend : String
  variant : Variant
  experiment : List Nat
deriving DecidableEq

/-- Embeds the traffic percent defaulting of GetBackend: 10 when the
configured value is non positive. -/
def effectiveTrafficPercent (trafficPercent : Int) : Int :=
  if trafficPercent ≤ 0 then 10 else trafficPercent

/-- Embeds GetBackend of the experiment manager for a non nil experiment and
an already derived user id. -/
def experimentGetBackend (e : ABExperiment) (userID : List Nat) : ExperimentResult :=
  let bucket := calculateBucket userID e.name
  if (bucket : Int) < effectiveTrafficPercent e.trafficPercent then
    { backend := e.treatment, variant := Variant.treatment, experiment := e.name }
  else
    { backend := e.control, variant := Variant.control, experiment := e.name }

/-- Embeds getUserID of the experiment manager: first non empty of the user
id header, the authorization header, and the remote address. -/
def getUserID (xUserID authorization remoteAddr : List Nat) : List Nat :=
  if xUserID ≠ [] then xUserID
  else if authorization ≠ [] then authorization
  else remoteAddr

/-!
Circuit breaker, from the proxy package. A per backend state machine over
closed, open and half open, guarded in the source by a mutex; the embedding
threads the state explicitly and passes the current time, in nanoseconds, to
the operations that read the clock.
-/

/-- The three circuit breaker states. -/
inductive CircuitState where
  | Closed
  | Open
  | HalfOpen
deriving DecidableEq

/-- The errors Allow can return. -/
inductive CircuitError where
  | CircuitOpen
  | TooManyRequests
deriving DecidableEq

/-- The circuit breaker configuration. The failure rate threshold of the
source is a float used only by the rate based trip check, which is kept as a
rational. -/
structure CircuitBreakerConfig where
  failureThreshold : Int
  successThreshold : Int
  timeoutNs : Int
  halfOpenMaxRequests : Int
  failureRateThreshold : Rat
  minRequestsForRate : Int
deriving DecidableEq

/-- The mutable fields of a circuit breaker. -/
structure CircuitBreakerState where
  state : CircuitState
  failures : Int
  successes : Int
  consecutiveFailures : Int
  consecutiveSuccesses : Int
  totalRequests : Int
  lastFailureNs : Int
  openedAtNs : Int
  halfOpenRequests : Int
deriving DecidableEq

/-- Embeds transitionTo: change the state and apply the per state side
effects, stamping openedAt with the current time on entering Open. -/
def transitionTo (cb : CircuitBreakerState) (now : Int) (newState : CircuitState) :
    CircuitBreakerState :=
  let cb1 := { cb with state := newState }
  match newState with
  | CircuitState.Open => { cb1 with openedAtNs := now }
  | CircuitState.HalfOpen => { cb1 with halfOpenRequests := 0, consecutiveSuccesses := 0 }
  | CircuitState.Closed =>
      { cb1 with
        failures := 0
        successes := 0
        totalRequests := 0
        consecutiveFailures := 0
        consecutiveSuccesses := 0 }

/-- Embeds Allow of the circuit breaker: pass through when Closed; when Open,
move to HalfOpen with one admitted request once the timeout has elapsed since
openedAt and reject with CircuitOpen before that; when HalfOpen, admit up to
the configured maximum of concurrent probes. -/
def circuitBreakerAllow (cfg : CircuitBreakerConfig) (cb : CircuitBreakerState) (now : Int) :
    Option CircuitError × CircuitBreakerState :=
  match cb.state with
  | CircuitState.Closed => (none, cb)
  | CircuitState.Open =>
      if now - cb.openedAtNs ≥ cfg.timeoutNs then
        let cb1 := transitionTo cb now CircuitState.HalfOpen
        (none, { cb1 with halfOpenRequests := 1 })
      else (some CircuitError.CircuitOpen, cb)
  | CircuitState.HalfOpen =>
      if cb.halfOpenRequests ≥ cfg.halfOpenMaxRequests then
        (some CircuitError.TooManyRequests, cb)
      else (none, { cb with halfOpenRequests := cb.halfOpenRequests + 1 })

/-- Runs a sequence of Allow calls at the given times, collecting the results
and threading the state. -/
def circuitBreakerAllowRun (cfg : CircuitBreakerConfig) (cb : CircuitBreakerState) :
    List Int → List (Option CircuitError) × CircuitBreakerState
  | [] => ([], cb)
  | t :: ts =>
      let step := circuitBreakerAllow cfg cb t
      let rest := circuitBreakerAllowRun cfg step.2 ts
      (step.1 :: rest.1, rest.2)

/-!
Route lookup of the data plane router, from the proxy package. Routes live in
the config cache keyed by namespace and name; a request carries optional
selection headers, where an absent header reads as the empty string.
-/

/-- The fields of a cached route that the lookup consults. -/
structure RouteSummary where
  name : String
  phase : String
deriving DecidableEq

/-- The selection headers of a request; an absent header is the empty
string. -/
structure SelectionHeaders where
  xRoute : String
  xNamespace : String
deriving DecidableEq

/-- All cached routes of a namespace, in cache order; embeds
ListRoutesInNamespace of the store. -/
def listRoutesInNamespace (routes : List ((String × String) × RouteSummary)) (ns : String) :
    List RouteSummary :=
  (routes.filter (fun kv => kv.1.1 = ns)).map (fun kv => kv.2)

/-- Embeds findMatchingRoute of the router: the namespace defaults to the
default namespace; a non empty route header selects exactly that key from
the cache, with no fallback on a miss; without the header the first route of
the namespace whose phase is neither Failed nor Pending is chosen. -/
def findMatchingRoute (routes : List ((String × String) × RouteSummary))
    (req : SelectionHeaders) : Option RouteSummary :=
  let ns := if req.xNamespace = "" then "default" else req.xNamespace
  if req.xRoute ≠ "" then
    assocLookup routes (ns, req.xRoute)
  else
    (listRoutesInNamespace routes ns).find?
      (fun r => !(r.phase = PhaseFailed) && !(r.phase = PhasePending))

/-- Embeds the route selection prefix of HandleRequest: no matching route
responds 404, a Failed route responds 503, otherwise the request proceeds
with the route. The second component is the immediate error status, if any. -/
def handleRequestRouting (routes : List ((String × String) × RouteSummary))
    (req : SelectionHeaders) : Option RouteSummary × Option Nat :=
  match findMatchingRoute routes req with
  | none => (none, some 404)
  | some route =>
      if route.phase = PhaseFailed then (some route, some 503)
      else (some route, none)

/-!
Config cache, from internal/cache/store.go. Stored values are pointers in
the source and every write and read goes through a generated deep copy. The
embedding makes the pointer indirection explicit: a memory maps addresses to
value contents, a set snapshots the content behind the given address into
the store, and a get allocates a fresh address holding a copy of the stored
content.
-/

/-- A memory of values of one kind: contents indexed by address, plus the
next fresh address. -/
structure Mem (α : Type) where
  data : Nat → α
  next : Nat

/-- Overwrite the content at an address; models a caller mutating a value it
holds a pointer to. -/
def Mem.write {α : Type} (m : Mem α) (p : Nat) (v : α) : Mem α :=
  { m with data := fun q => if q = p then v else m.data q }

/-- The store state: routes and backends keyed by namespace and name, holding
deep copied contents rather than addresses. -/
structure StoreState (ρ β : Type) where
  routes : List ((String × String) × ρ)
  backends : List ((String × String) × β)

/-- Embeds SetRoute: store a deep copy of the content behind the given
address. -/
def storeSetRoute {ρ β : Type} (s : StoreState ρ β) (m : Mem ρ) (k : String × String)
    (p : Nat) : StoreState ρ β :=
  { s with routes := assocUpsert s.routes k (m.data p) }

/-- Embeds GetRoute: on a hit, allocate a fresh address holding a deep copy
of the stored content and return it; on a miss return nothing and leave the
memory unchanged. -/
def storeGetRoute {ρ β : Type} (s : StoreState ρ β) (m : Mem ρ) (k : String × String) :
    Option Nat × Mem ρ :=
  match assocLookup s.routes k with
  | none => (none, m)
  | some v => (some m.next, { data := (m.write m.next v).data, next := m.next + 1 })

/-- Embeds SetBackend, identically to SetRoute on the backend collection. -/
def storeSetBackend {ρ β : Type} (s : StoreState ρ β) (m : Mem β) (k : String × String)
    (p : Nat) : StoreState ρ β :=
  { s with backends := assocUpsert s.backends k (m.data p) }

/-- Embeds GetBackend, identically to GetRoute on the backend collection. -/
def storeGetBackend {ρ β : Type} (s : StoreState ρ β) (m : Mem β) (k : String × String) :
    Option Nat × Mem β :=
  match assocLookup s.backends k with
  | none => (none, m)
  | some v => (some m.next, { data := (m.write m.next v).data, next := m.next + 1 })

/-!
Cost tracking, from the proxy package: the cost tracker aggregates, and the
response modifier of the backend handler captures the body and feeds token
usage to the tracker. Monetary amounts are rationals; the float parsing of
the external strconv library is a parameter, as are the JSON body shapes of
the external encoding library. The usage headers of the Anthropic path are
parsed concretely.
-/

/-- The cost configuration of a backend; amounts are decimal strings in the
source. -/
structure CostConfig where
  inputTokenCost : String
  outputTokenCost : String
  requestCost : String
  currency : String
deriving DecidableEq

/-- Token usage extracted from a backend response. -/
structure TokenUsage where
  inputTokens : Int
  outputTokens : Int
deriving DecidableEq

/-- Aggregated cost statistics for one route or backend. -/
structure CostStats where
  totalCost : Rat
  totalRequests : Int
  totalInputTokens : Int
  totalOutputTokens : Int
  currency : String
  lastUpdatedNs : Int
deriving DecidableEq

/-- The two aggregate maps of the cost tracker. -/
structure CostTrackerState where
  routeCosts : List (String × CostStats)
  backendCosts : List (String × CostStats)
deriving DecidableEq

/-- The state of a freshly constructed cost tracker. -/
def emptyCostTrackerState : CostTrackerState := { routeCosts := [], backendCosts := [] }

/-- A zeroed statistics record carrying only the currency, as created on
first sight of a key. -/
def emptyCostStats (currency : String) : CostStats :=
  { totalCost := 0, totalRequests := 0, totalInputTokens := 0, totalOutputTokens := 0,
    currency := currency, lastUpdatedNs := 0 }

/-- Embeds calculateCost: each term is added only when its string is non
empty and parses; parse failures contribute nothing. -/
def calculateCost (parseFloat : String → Option Rat) (usage : TokenUsage)
    (config : CostConfig) : Rat :=
  let c1 : Rat :=
    if config.inputTokenCost ≠ "" then
      match parseFloat config.inputTokenCost with
      | some v => (usage.inputTokens : Rat) / 1000 * v
      | none => 0
    else 0
  let c2 : Rat :=
    if config.outputTokenCost ≠ "" then
      match parseFloat config.outputTokenCost with
      | some v => (usage.outputTokens : Rat) / 1000 * v
      | none => 0
    else 0
  let c3 : Rat :=
    if config.requestCost ≠ "" then
      match parseFloat config.requestCost with
      | some v => v
      | none => 0
    else 0
  c1 + c2 + c3

/-- Embeds updateStats: create the record on first sight, then accumulate
cost, request count and token counts, stamping the update time. -/
def updateStats (stats : List (String × CostStats)) (key : String) (usage : TokenUsage)
    (cost : Rat) (currency : String) (timestampNs : Int) : List (String × CostStats) :=
  let s :=
    match assocLookup stats key with
    | some s => s
    | none => emptyCostStats currency
  assocUpsert stats key
    { s with
      totalCost := s.totalCost + cost
      totalRequests := s.totalRequests + 1
      totalInputTokens := s.totalInputTokens + usage.inputTokens
      totalOutputTokens := s.totalOutputTokens + usage.outputTokens
      lastUpdatedNs := timestampNs }

/-- Embeds TrackRequest of the cost tracker: no op without a cost config,
otherwise update both aggregate maps with the computed cost and the currency
defaulted to USD. -/
def trackRequest (parseFloat : String → Option Rat) (ct : CostTrackerState)
    (route backend : String) (usage : TokenUsage) (costConfig : Option CostConfig)
    (now : Int) : CostTrackerState :=
  match costConfig with
  | none => ct
  | some config =>
      let cost := calculateCost parseFloat usage config
      let currency := if config.currency = "" then "USD" else config.currency
      { routeCosts := updateStats ct.routeCosts route usage cost currency now,
        backendCosts := updateStats ct.backendCosts backend usage cost currency now }

/-- A backend response as seen by the response modifier: status, the content
length reported by the backend with negative one for unknown, whether the
transfer is chunked, headers, and the body bytes when present. -/
structure HttpResponse where
  statusCode : Int
  contentLength : Int
  transferChunked : Bool
  headers : List (String × String)
  body : Option (List Nat)
deriving DecidableEq

/-- Header lookup returning the empty string when absent, as Header.Get
does. -/
def headerGet (headers : List (String × String)) (key : String) : String :=
  match assocLookup headers key with
  | some v => v
  | none => ""

/-- Accumulating decimal digit parser over the characters of a string; any
non digit character fails the parse. -/
def parseDecNatAux : List Char → Nat → Option Nat
  | [], acc => some acc
  | c :: cs, acc =>
      if 48 ≤ c.toNat ∧ c.toNat ≤ 57 then parseDecNatAux cs (acc * 10 + (c.toNat - 48))
      else none

/-- Decimal integer parsing with the error discarded, as the source does
with the result of ParseInt: an empty string, a bare sign or a failed parse
leaves zero. -/
def parseInt64OrZero (s : String) : Int :=
  match s.data with
  | [] => 0
  | c :: cs =>
      if c = '-' then
        match cs with
        | [] => 0
        | _ =>
            match parseDecNatAux cs 0 with
            | some n => -(n : Int)
            | none => 0
      else
        match parseDecNatAux (c :: cs) 0 with
        | some n => (n : Int)
        | none => 0

/-- The JSON body shapes of the three providers are handled by the external
encoding library; they are parameters of the embedding, each returning zero
usage on malformed bodies. -/
structure JsonUsageParsers where
  openai : List Nat → TokenUsage
  anthropicBody : List Nat → TokenUsage
  cohere : List Nat → TokenUsage

/-- Embeds parseAnthropicUsage: prefer the usage headers when both are
present, otherwise fall back to the JSON body. -/
def parseAnthropicUsage (jsonUsage : List Nat → TokenUsage) (resp : HttpResponse)
    (body : List Nat) : TokenUsage :=
  let inputStr := headerGet resp.headers "X-Usage-Input-Tokens"
  let outputStr := headerGet resp.headers "X-Usage-Output-Tokens"
  if inputStr ≠ "" ∧ outputStr ≠ "" then
    { inputTokens := parseInt64OrZero inputStr, outputTokens := parseInt64OrZero outputStr }
  else jsonUsage body

/-- Embeds ParseTokenUsage: dispatch on the provider string, with the empty
provider treated as openai and unknown providers yielding zero usage. -/
def parseTokenUsage (jp : JsonUsageParsers) (provider : String) (resp : HttpResponse)
    (body : List Nat) : TokenUsage :=
  if provider = "openai" ∨ provider = "" then jp.openai body
  else if provider = "anthropic" then parseAnthropicUsage jp.anthropicBody resp body
  else if provider = "cohere" then jp.cohere body
  else { inputTokens := 0, outputTokens := 0 }

/-- Embeds trackCosts of the backend handler: with a body present, read it in
full, parse the usage, and feed the tracker when any token count is
positive. No field describing streaming is consulted. -/
def trackCosts (jp : JsonUsageParsers) (parseFloat : String → Option Rat)
    (resp : HttpResponse) (routeName backendName : String)
    (backendCost : Option CostConfig) (provider : String) (ct : CostTrackerState)
    (now : Int) : CostTrackerState :=
  match resp.body with
  | none => ct
  | some bodyBytes =>
      let usage := parseTokenUsage jp provider resp bodyBytes
      if usage.inputTokens > 0 ∨ usage.outputTokens > 0 then
        trackRequest parseFloat ct routeName backendName usage backendCost now
      else ct

/-- Embeds the cost branch of the ModifyResponse hook of executeRequest:
when the route enables cost tracking and the backend carries a cost config,
trackCosts runs on the response. -/
def modifyResponseCostTracking (jp : JsonUsageParsers) (parseFloat : String → Option Rat)
    (costTracking : Bool) (backendCost : Option CostConfig) (resp : HttpResponse)
    (routeName backendName provider : String) (ct : CostTrackerState) (now : Int) :
    CostTrackerState :=
  if costTracking ∧ backendCost.isSome then
    trackCosts jp parseFloat resp routeName backendName backendCost provider ct now
  else ct

/-- JSON parsers that always report zero usage, usable for evaluating the
non JSON paths on concrete inputs. -/
def zeroJsonUsageParsers : JsonUsageParsers where
  openai := fun _ => { inputTokens := 0, outputTokens := 0 }
  anthropicBody := fun _ => { inputTokens := 0, outputTokens := 0 }
  cohere := fun _ => { inputTokens := 0, outputTokens := 0 }

/-- A float parser that always fails, usable for evaluating paths that do
not depend on parsed amounts. -/
def parseFloatNone : String → Option Rat := fun _ => none

/-- A clearly streaming backend response: chunked transfer, no content
length, token usage reported in headers, an empty body chunk so far. -/
def sampleStreamingResponse : HttpResponse :=
  { statusCode := 200
    contentLength := -1
    transferChunked := true
    headers := [("X-Usage-Input-Tokens", "150"), ("X-Usage-Output-Tokens", "75")]
    body := some [] }

/-- A cost config with no amounts set, as permitted by the data model. -/
def sampleCostConfig : CostConfig :=
  { inputTokenCost := "", outputTokenCost := "", requestCost := "", currency := "" }

/-- The tracker state after the response modifier runs on the streaming
response with cost tracking enabled. -/
def trackedAfterStreaming : CostTrackerState :=
  modifyResponseCostTracking zeroJsonUsageParsers parseFloatNone true
    (some sampleCostConfig) sampleStreamingResponse
    "route1" "backend1" "anthropic" emptyCostTrackerState 0

end Kortex

namespace Kortex

/-- C5. For every route with total referenced backends, healthy count and
missing count, the computed phase is Pending iff total is zero; Failed iff a
backend is missing or total is positive with no healthy backend; Degraded iff
nothing is missing and the healthy count is strictly between zero and total;
Active iff nothing is missing and all of a positive number of backends are
healthy. The counts of a reconcile satisfy healthy + missing at most total. -/
theorem route_phase_characterization (total healthy missing : Nat)
    (hh : healthy ≤ total) (hm : missing ≤ total) :
    (determinePhase total healthy missing = PhasePending ↔ total = 0) ∧
    (determinePhase total healthy missing = PhaseFailed ↔
      (missing > 0 ∨ (total > 0 ∧ healthy = 0))) ∧
    (determinePhase total healthy missing = PhaseDegraded ↔
      (missing = 0 ∧ 0 < healthy ∧ healthy < total)) ∧
    (determinePhase total healthy missing = PhaseActive ↔
      (missing = 0 ∧ healthy = total ∧ 0 < total)) := by
  unfold determinePhase PhasePending PhaseActive PhaseDegraded PhaseFailed
  repeat' split
  all_goals refine ⟨?_, ?_, ?_, ?_⟩
  all_goals constructor
  all_goals intro h
  all_goals first
    | rfl
    | omega
    | exact absurd h (by decide)

/-- C5 witness: a route with two referenced backends, one healthy, none
missing, is Degraded. -/
theorem route_phase_characterization_witness :
    determinePhase 2 1 0 = PhaseDegraded :=
  (route_phase_characterization 2 1 0 (by decide) (by decide)).2.2.1.mpr
    ⟨rfl, by decide, by decide⟩

/-- C2 counterexample: with primary a and fallback backends b, b the chain
keeps both copies of b, so it is not duplicate free and differs from the
first-occurrence deduplication of the concatenated list. -/
theorem fallback_chain_duplicates_counterexample :
    buildFallbackChain (some ["b", "b"]) "a" = ["a", "b", "b"] ∧
    ¬ (buildFallbackChain (some ["b", "b"]) "a").Nodup ∧
    buildFallbackChain (some ["b", "b"]) "a" ≠
      dedupFirstOccurrence ("a" :: ["b", "b"]) := by
  refine ⟨rfl, ?_, by decide⟩
  decide

/-- C2 amended: the chain starts with the primary name, which occurs exactly
once; every other name keeps its multiplicity from the configured fallback
list, in order (the chain is a sublist of the primary followed by the
fallback list). Duplicates inside the fallback list are therefore preserved. -/
theorem fallback_chain_amended (fallbackBackends : Option (List String)) (primary : String) :
    (buildFallbackChain fallbackBackends primary).head? = some primary ∧
    (buildFallbackChain fallbackBackends primary).count primary = 1 ∧
    (∀ n, n ≠ primary →
      (buildFallbackChain fallbackBackends primary).count n =
        (fallbackBackends.getD []).count n) ∧
    List.Sublist (buildFallbackChain fallbackBackends primary)
      (primary :: fallbackBackends.getD []) := by
  unfold buildFallbackChain
  match fallbackBackends with
  | none =>
      refine ⟨rfl, by simp, ?_, by simp⟩
      intro n hn
      simp [List.count_cons, hn]
  | some names =>
      refine ⟨rfl, ?_, ?_, ?_⟩
      · simp [List.count_cons, List.count_eq_zero]
      · intro n hn
        simp [List.count_cons, hn]
      · exact (List.filter_sublist names).cons_cons primary

/-- C2 amended witness: primary a with fallback list b, b, a yields the chain
a, b, b with the count of b preserved. -/
theorem fallback_chain_amended_witness :
    (buildFallbackChain (some ["b", "b", "a"]) "a").count "b" =
      (["b", "b", "a"] : List String).count "b" :=
  (fallback_chain_amended (some ["b", "b", "a"]) "a").2.2.1 "b" (by decide)

/-- C3 counterexample: a retry delay of one and a half seconds produces the
header value 2, while the claimed ceiling plus one is 3. -/
theorem retry_after_header_counterexample :
    (rateLimitDenyResponse 60 0 1500000000).retryAfterHeader = 2 ∧
    ceilSeconds 1500000000 + 1 = 3 ∧
    (rateLimitDenyResponse 60 0 1500000000).retryAfterHeader ≠
      ceilSeconds 1500000000 + 1 := by
  refine ⟨?_, ?_, ?_⟩ <;> decide

/-- C3 amended: on a deny the server responds 429 with the limit and
remaining headers, and Retry-After is the delay truncated to whole seconds
plus one. That value is at least the ceiling of the delay in seconds and
always strictly exceeds the delay itself. -/
theorem retry_after_header_amended (limit remaining : Int) (ns : Nat) :
    (rateLimitDenyResponse limit remaining ns).status = 429 ∧
    (rateLimitDenyResponse limit remaining ns).limitHeader = limit ∧
    (rateLimitDenyResponse limit remaining ns).remainingHeader = remaining ∧
    (rateLimitDenyResponse limit remaining ns).retryAfterHeader = ns / NanosPerSecond + 1 ∧
    ceilSeconds ns ≤ (rateLimitDenyResponse limit remaining ns).retryAfterHeader ∧
    ns < (rateLimitDenyResponse limit remaining ns).retryAfterHeader * NanosPerSecond := by
  refine ⟨rfl, rfl, rfl, rfl, ?_, ?_⟩
  · dsimp only [rateLimitDenyResponse, retryAfterHeaderValue, ceilSeconds, NanosPerSecond]
    omega
  · dsimp only [rateLimitDenyResponse, retryAfterHeaderValue, NanosPerSecond]
    omega

/-- C4. For every sequence of probe results ending in probe result b, with
the failure count accumulated from zero: a successful probe yields Healthy
and resets the count to zero; a failed probe increments the count and yields
Unhealthy exactly when the count has reached the effective failure threshold,
and Unknown exactly when the count lies between 1 and the threshold minus
one. The effective threshold is positive and defaults to 3 when no health
check config is present. -/
theorem backend_health_threshold (probes : List Bool) (b : Bool) (hc : Option Int) :
    (b = true →
      computeHealthStatus b (failureCountAfter (probes ++ [b])) (effectiveFailureThreshold hc) =
        HealthStatusHealthy ∧ failureCountAfter (probes ++ [b]) = 0) ∧
    (b = false →
      failureCountAfter (probes ++ [b]) = failureCountAfter probes + 1 ∧
      (computeHealthStatus b (failureCountAfter (probes ++ [b])) (effectiveFailureThreshold hc) =
          HealthStatusUnhealthy ↔
        (failureCountAfter (probes ++ [b]) : Int) ≥ effectiveFailureThreshold hc) ∧
      (computeHealthStatus b (failureCountAfter (probes ++ [b])) (effectiveFailureThreshold hc) =
          HealthStatusUnknown ↔
        1 ≤ failureCountAfter (probes ++ [b]) ∧
          (failureCountAfter (probes ++ [b]) : Int) ≤ effectiveFailureThreshold hc - 1)) ∧
    1 ≤ effectiveFailureThreshold hc ∧
    (hc = none → effectiveFailureThreshold hc = 3) := by
  have hsplit : failureCountAfter (probes ++ [b]) =
      updateFailureCount (failureCountAfter probes) b := by
    simp [failureCountAfter, List.foldl_append]
  have ht : 1 ≤ effectiveFailureThreshold hc := by
    cases hc with
    | none => decide
    | some t =>
        simp only [effectiveFailureThreshold]
        split <;> omega
  refine ⟨fun hb => ?_, fun hb => ?_, ht, fun hnone => by subst hnone; rfl⟩
  · subst hb
    rw [hsplit]
    exact ⟨rfl, rfl⟩
  · subst hb
    rw [hsplit]
    refine ⟨rfl, ?_, ?_⟩ <;>
      · simp only [computeHealthStatus, updateFailureCount, Bool.false_eq_true, if_false]
        split <;> constructor <;> intro h2 <;>
          first
            | rfl
            | omega
            | exact absurd h2 (by decide)

/-- C4 witness: with the default threshold of 3, a success followed by two
failures leaves the backend in the Unknown quarantine state. -/
theorem backend_health_threshold_witness :
    computeHealthStatus false (failureCountAfter ([true, false] ++ [false]))
      (effectiveFailureThreshold none) = HealthStatusUnknown :=
  (((backend_health_threshold [true, false] false none).2.1 rfl).2.2).mpr (by decide)

/-- C10. Allow with no rate limit configuration, or with a configured per
minute limit that is not positive, allows the request with zero limit,
remaining and retry delay, and returns the limiter state unchanged, for any
behavior of the underlying token buckets. -/
theorem rate_limiter_no_config_allows {L : Type} (ops : LimiterOps L)
    (st : RateLimiterState L) (routeName userID : String) (now : Nat)
    (config : Option RateLimitConfig)
    (h : config = none ∨ ∃ cfg, config = some cfg ∧ cfg.requestsPerMinute ≤ 0) :
    RateLimiterAllow ops st routeName userID config now =
      ({ allowed := true, limit := 0, remaining := 0, retryAfterNs := 0 }, st) := by
  rcases h with h | ⟨cfg, hcfg, hrpm⟩
  · subst h
    rfl
  · subst hcfg
    unfold RateLimiterAllow
    simp [hrpm]

/-- C10 witness: a zero per minute limit allows the request and leaves a
fresh limiter untouched. -/
theorem rate_limiter_no_config_allows_witness :
    RateLimiterAllow unitLimiterOps emptyRateLimiterState "chat" "u1"
        (some { requestsPerMinute := 0, perUser := true, userHeader := "x-user-id" }) 7 =
      ({ allowed := true, limit := 0, remaining := 0, retryAfterNs := 0 },
        emptyRateLimiterState) :=
  rate_limiter_no_config_allows unitLimiterOps emptyRateLimiterState "chat" "u1" 7
    (some { requestsPerMinute := 0, perUser := true, userHeader := "x-user-id" })
    (Or.inr ⟨{ requestsPerMinute := 0, perUser := true, userHeader := "x-user-id" }, rfl,
      by decide⟩)

/-- C6. The experiment assignment is a deterministic function of the
experiment name and the derived user id: two experiments agreeing on name and
traffic percent assign the same variant to a user; the bucket is the FNV-1a
hash of the user id, a colon, and the name, modulo 100, hence below 100; the
variant is treatment exactly when the bucket is below the effective traffic
percent, which defaults to 10 for non positive configured values. The last
conjunct pins the hash to the standard FNV-1a test vector for the byte of
the letter a. -/
theorem experiment_assignment_deterministic (e1 e2 : ABExperiment) (u : List Nat)
    (hname : e1.name = e2.name) (htp : e1.trafficPercent = e2.trafficPercent) :
    (experimentGetBackend e1 u).variant = (experimentGetBackend e2 u).variant ∧
    calculateBucket u e1.name = fnv1a32 (u ++ colonByte :: e1.name) % 100 ∧
    calculateBucket u e1.name < 100 ∧
    ((experimentGetBackend e1 u).variant = Variant.treatment ↔
      (calculateBucket u e1.name : Int) < effectiveTrafficPercent e1.trafficPercent) ∧
    ((experimentGetBackend e1 u).variant = Variant.control ↔
      ¬ (calculateBucket u e1.name : Int) < effectiveTrafficPercent e1.trafficPercent) ∧
    (e1.trafficPercent ≤ 0 → effectiveTrafficPercent e1.trafficPercent = 10) ∧
    fnv1a32 [97] = 3826002220 := by
  refine ⟨?_, rfl, ?_, ?_, ?_, ?_, by decide⟩
  · dsimp only [experimentGetBackend]
    rw [hname, htp]
    split <;> rfl
  · exact Nat.mod_lt _ (by decide)
  · dsimp only [experimentGetBackend]
    split <;> simp_all
  · dsimp only [experimentGetBackend]
    split <;> simp_all
  · intro hle
    simp [effectiveTrafficPercent, hle]

/-- C6 witness: for a one byte user id and a one byte experiment name, the
bucket lies below 100. -/
theorem experiment_assignment_deterministic_witness :
    calculateBucket [117] ([101] : List Nat) < 100 :=
  (experiment_assignment_deterministic
    { name := [101], control := "a", treatment := "b", trafficPercent := 50 }
    { name := [101], control := "a", treatment := "b", trafficPercent := 50 }
    [117] rfl rfl).2.2.1

/-- An Allow call on an Open breaker before the timeout elapses is rejected
with CircuitOpen and leaves the breaker untouched. -/
theorem circuitBreakerAllow_open_early (cfg : CircuitBreakerConfig)
    (cb : CircuitBreakerState) (t : Int) (hopen : cb.state = CircuitState.Open)
    (ht : t < cb.openedAtNs + cfg.timeoutNs) :
    circuitBreakerAllow cfg cb t = (some CircuitError.CircuitOpen, cb) := by
  obtain ⟨st, f, s, cf, cs, tr, lf, oa, hor⟩ := cb
  dsimp only at hopen ht
  subst hopen
  simp only [circuitBreakerAllow]
  rw [if_neg (by omega)]

/-- The first Allow call on an Open breaker at or after the timeout succeeds,
moves the breaker to HalfOpen and seeds one half open request. -/
theorem circuitBreakerAllow_open_late (cfg : CircuitBreakerConfig)
    (cb : CircuitBreakerState) (t : Int) (hopen : cb.state = CircuitState.Open)
    (ht : cb.openedAtNs + cfg.timeoutNs ≤ t) :
    (circuitBreakerAllow cfg cb t).1 = none ∧
    (circuitBreakerAllow cfg cb t).2.state = CircuitState.HalfOpen ∧
    (circuitBreakerAllow cfg cb t).2.halfOpenRequests = 1 := by
  obtain ⟨st, f, s, cf, cs, tr, lf, oa, hor⟩ := cb
  dsimp only at hopen ht
  subst hopen
  simp only [circuitBreakerAllow]
  rw [if_pos (by omega)]
  exact ⟨rfl, rfl, rfl⟩

/-- Running Allow repeatedly on an Open breaker, always before the timeout,
rejects every call and preserves the state. -/
theorem circuitBreakerAllowRun_open_early (cfg : CircuitBreakerConfig)
    (cb : CircuitBreakerState) (hopen : cb.state = CircuitState.Open) :
    ∀ times : List Int, (∀ t ∈ times, t < cb.openedAtNs + cfg.timeoutNs) →
      circuitBreakerAllowRun cfg cb times =
        (times.map (fun _ => some CircuitError.CircuitOpen), cb)
  | [], _ => rfl
  | t :: ts, h => by
      have h1 := circuitBreakerAllow_open_early cfg cb t hopen (h t (by simp))
      have h2 := circuitBreakerAllowRun_open_early cfg cb hopen ts
        (fun x hx => h x (by simp [hx]))
      simp [circuitBreakerAllowRun, h1, h2]

/-- C7. Once the breaker is Open with openedAt stamped at its entry time,
every Allow call strictly before openedAt plus the timeout returns
CircuitOpen and leaves the whole state unchanged; the first Allow call at or
after that instant returns no error, transitions to HalfOpen, and sets the
half open request count to one. -/
theorem circuit_open_gating (cfg : CircuitBreakerConfig) (cb : CircuitBreakerState)
    (times : List Int) (tLate : Int) (hopen : cb.state = CircuitState.Open)
    (hearly : ∀ t ∈ times, t < cb.openedAtNs + cfg.timeoutNs)
    (hlate : cb.openedAtNs + cfg.timeoutNs ≤ tLate) :
    (circuitBreakerAllowRun cfg cb times).1 =
      times.map (fun _ => some CircuitError.CircuitOpen) ∧
    (circuitBreakerAllowRun cfg cb times).2 = cb ∧
    (circuitBreakerAllow cfg (circuitBreakerAllowRun cfg cb times).2 tLate).1 = none ∧
    (circuitBreakerAllow cfg (circuitBreakerAllowRun cfg cb times).2 tLate).2.state =
      CircuitState.HalfOpen ∧
    (circuitBreakerAllow cfg (circuitBreakerAllowRun cfg cb times).2 tLate).2.halfOpenRequests
      = 1 := by
  have hrun := circuitBreakerAllowRun_open_early cfg cb hopen times hearly
  have hend : (circuitBreakerAllowRun cfg cb times).2 = cb := by rw [hrun]
  have hlateStep := circuitBreakerAllow_open_late cfg cb tLate hopen hlate
  refine ⟨by rw [hrun], hend, ?_, ?_, ?_⟩ <;> rw [hend]
  · exact hlateStep.1
  · exact hlateStep.2.1
  · exact hlateStep.2.2

/-- C7 witness: a breaker opened at time 0 with a timeout of 100 rejects at
times 10 and 50 and moves to HalfOpen at time 100. -/
theorem circuit_open_gating_witness :
    (circuitBreakerAllow
      { failureThreshold := 3, successThreshold := 2, timeoutNs := 100,
        halfOpenMaxRequests := 1, failureRateThreshold := 0, minRequestsForRate := 0 }
      (circuitBreakerAllowRun
        { failureThreshold := 3, successThreshold := 2, timeoutNs := 100,
          halfOpenMaxRequests := 1, failureRateThreshold := 0, minRequestsForRate := 0 }
        { state := CircuitState.Open, failures := 3, successes := 0,
          consecutiveFailures := 3, consecutiveSuccesses := 0, totalRequests := 3,
          lastFailureNs := 0, openedAtNs := 0, halfOpenRequests := 0 }
        [10, 50]).2 100).2.state = CircuitState.HalfOpen :=
  (circuit_open_gating
    { failureThreshold := 3, successThreshold := 2, timeoutNs := 100,
      halfOpenMaxRequests := 1, failureRateThreshold := 0, minRequestsForRate := 0 }
    { state := CircuitState.Open, failures := 3, successes := 0,
      consecutiveFailures := 3, consecutiveSuccesses := 0, totalRequests := 3,
      lastFailureNs := 0, openedAtNs := 0, halfOpenRequests := 0 }
    [10, 50] 100 rfl (by decide) (by decide)).2.2.2.1

/-- C8. With a non empty route header, the lookup consults exactly the cache
key made of the defaulted namespace and the header value: when that key is
absent, no route is selected and the request is answered 404, whatever other
routes, active or not, the cache holds in that namespace. -/
theorem explicit_route_miss_404 (routes : List ((String × String) × RouteSummary))
    (req : SelectionHeaders) (hr : req.xRoute ≠ "")
    (habs : assocLookup routes
      ((if req.xNamespace = "" then "default" else req.xNamespace), req.xRoute) = none) :
    findMatchingRoute routes req =
      assocLookup routes
        ((if req.xNamespace = "" then "default" else req.xNamespace), req.xRoute) ∧
    findMatchingRoute routes req = none ∧
    handleRequestRouting routes req = (none, some 404) := by
  have h1 : findMatchingRoute routes req =
      assocLookup routes
        ((if req.xNamespace = "" then "default" else req.xNamespace), req.xRoute) := by
    dsimp only [findMatchingRoute]
    rw [if_pos hr]
  refine ⟨h1, h1.trans habs, ?_⟩
  unfold handleRequestRouting
  rw [h1.trans habs]

/-- C8 witness: a cache holding a different active route in the default
namespace still answers 404 for an explicit route header that misses. -/
theorem explicit_route_miss_404_witness :
    handleRequestRouting [(("default", "other"), { name := "other", phase := "Active" })]
      { xRoute := "missing", xNamespace := "" } = (none, some 404) :=
  (explicit_route_miss_404
    [(("default", "other"), { name := "other", phase := "Active" })]
    { xRoute := "missing", xNamespace := "" } (by decide) (by decide)).2.2

/-- C9. A set followed by a get on the same key finds the entry and returns a
fresh copy whose content equals the content the caller held at set time. The
memory at get time is universally quantified, so any mutation after the set,
of the original value or of copies returned by earlier gets, leaves the
content of a later get unchanged; and the copy lives at a fresh address, so
the store never hands out the address it was given. Both the route and the
backend collections satisfy this. -/
theorem cache_set_get_deep_copy {ρ β : Type} (s : StoreState ρ β) (m : Mem ρ) (mb : Mem β)
    (k : String × String) (p q : Nat) (m2 : Mem ρ) (mb2 : Mem β) :
    (storeGetRoute (storeSetRoute s m k p) m2 k).1 = some m2.next ∧
    (storeGetRoute (storeSetRoute s m k p) m2 k).2.data m2.next = m.data p ∧
    (storeGetBackend (storeSetBackend s mb k q) mb2 k).1 = some mb2.next ∧
    (storeGetBackend (storeSetBackend s mb k q) mb2 k).2.data mb2.next = mb.data q := by
  have hr : assocLookup (storeSetRoute s m k p).routes k = some (m.data p) := by
    simp [storeSetRoute, assocUpsert, assocLookup]
  have hb : assocLookup (storeSetBackend s mb k q).backends k = some (mb.data q) := by
    simp [storeSetBackend, assocUpsert, assocLookup]
  refine ⟨?_, ?_, ?_, ?_⟩
  · simp [storeGetRoute, hr]
  · simp [storeGetRoute, hr, Mem.write]
  · simp [storeGetBackend, hb]
  · simp [storeGetBackend, hb, Mem.write]

/-- C1. The cost branch of the response modifier never consults the content
length or the chunked flag of the response, so it cannot skip cost capture
for streaming responses: first, its result is invariant under changing those
two fields; second, at a concrete chunked response with no content length,
cost tracking enabled and a cost config present, the tracker state changes,
recording one request with the parsed token counts for the route and the
backend. -/
theorem streaming_response_cost_still_tracked :
    (∀ (jp : JsonUsageParsers) (pf : String → Option Rat) (costTracking : Bool)
        (backendCost : Option CostConfig) (resp : HttpResponse)
        (routeName backendName provider : String) (ct : CostTrackerState) (now : Int)
        (cl cl2 : Int) (ch ch2 : Bool),
      modifyResponseCostTracking jp pf costTracking backendCost
          { resp with contentLength := cl, transferChunked := ch }
          routeName backendName provider ct now =
        modifyResponseCostTracking jp pf costTracking backendCost
          { resp with contentLength := cl2, transferChunked := ch2 }
          routeName backendName provider ct now) ∧
    trackedAfterStreaming.routeCosts.map (fun kv => kv.1) = ["route1"] ∧
    trackedAfterStreaming.backendCosts.map (fun kv => kv.1) = ["backend1"] ∧
    (assocLookup trackedAfterStreaming.routeCosts "route1").map
        (fun s => (s.totalRequests, s.totalInputTokens, s.totalOutputTokens, s.currency)) =
      some (1, 150, 75, "USD") ∧
    (assocLookup trackedAfterStreaming.backendCosts "backend1").map
        (fun s => (s.totalRequests, s.totalInputTokens, s.totalOutputTokens, s.currency)) =
      some (1, 150, 75, "USD") ∧
    trackedAfterStreaming ≠ emptyCostTrackerState := by
  have hkeys : trackedAfterStreaming.routeCosts.map (fun kv => kv.1) = ["route1"] := by
    decide
  refine ⟨fun jp pf costTracking backendCost resp routeName backendName provider ct
    now cl cl2 ch ch2 => rfl, hkeys, by decide, by decide, by decide, ?_⟩
  intro h
  rw [h] at hkeys
  exact absurd hkeys (by decide)

end Kortex
